import Mathlib

/-!
Verification of the entropy-collection subsystem (`src/randomenv.cpp`).

The accumulator (`CSHA512 &hasher`) is modelled by the byte sequence written
to it: every `hasher.Write(ptr, n)` / `hasher << v` call appends bytes to a
`List Nat`.  Each collector routine is embedded as a Lean function from its
OS-visible inputs (query results, file reads, CPUID responses, ...) to the
bytes it absorbs and the state it leaves behind.
-/

namespace RandomEnv

/-- Byte sequences written into the hash accumulator. -/
abbrev Bytes := List Nat

/-- Little-endian memory representation of a 64-bit value, as `hasher << v`
writes for a `size_t`. -/
def le64 (v : Nat) : Bytes :=
  [v % 256, v / 256 % 256, v / 65536 % 256, v / 16777216 % 256,
   v / 4294967296 % 256, v / 1099511627776 % 256,
   v / 281474976710656 % 256, v / 72057594037927936 % 256]

/-- Little-endian memory representation of a 32-bit value (a C `int`). -/
def le32 (v : Nat) : Bytes :=
  [v % 256, v / 256 % 256, v / 65536 % 256, v / 16777216 % 256]

theorem le64_length (v : Nat) : (le64 v).length = 8 := rfl

theorem le32_length (v : Nat) : (le32 v).length = 4 := rfl

/-! ## Rate-limited expensive source: `RandAddSeedPerfmon`

The Windows performance-data query `RegQueryValueExA` is modelled as an
oracle giving, for each buffer size passed in, the return code, the size
reported back through `nSize`, and the buffer contents. -/

/-- Behaviour of `RegQueryValueExA(HKEY_PERFORMANCE_DATA, "Global", ...)`:
for a query with a buffer of a given size, `ret` is the return code,
`size` the value written back through `lpcbData`, and `data sz i` byte `i`
of the buffer contents after the call. -/
structure OsQuery where
  ret : Nat → Nat
  size : Nat → Nat
  data : Nat → Nat → Nat

/-- `ERROR_MORE_DATA`, the Windows code for "buffer too small". -/
def ERROR_MORE_DATA : Nat := 234

/-- Buffer resize step of the query loop in `RandAddSeedPerfmon`:
`vData.resize(std::max((vData.size() * 3) / 2, nMaxSize))` with
`nMaxSize = 10000000`. -/
def perfmonGrow (sz : Nat) : Nat := max (sz * 3 / 2) 10000000

/-- Outcome of the `while (true)` query loop in `RandAddSeedPerfmon`:
final return code, final reported `nSize`, final buffer size, and the list
of buffer sizes at which the OS was queried. -/
structure PerfLoopOut where
  ret : Nat
  nSize : Nat
  bufSize : Nat
  sizes : List Nat
deriving DecidableEq

/-- The query loop of `RandAddSeedPerfmon`: query with the current buffer;
stop unless the OS reports `ERROR_MORE_DATA` and the buffer is still below
the 10 MB cap; otherwise resize with `perfmonGrow` and retry. -/
def perfmonLoop (os : OsQuery) (sz : Nat) : PerfLoopOut :=
  if h : os.ret sz ≠ ERROR_MORE_DATA ∨ 10000000 ≤ sz then
    ⟨os.ret sz, os.size sz, sz, [sz]⟩
  else
    let r := perfmonLoop os (perfmonGrow sz)
    ⟨r.ret, r.nSize, r.bufSize, sz :: r.sizes⟩
termination_by 10000000 - sz
decreasing_by
  rcases not_or.mp h with ⟨-, h2⟩
  have h4 : 10000000 ≤ perfmonGrow sz := Nat.le_max_right _ _
  omega

/-- Observable outcome of one `RandAddSeedPerfmon` call: the value left in
`last_perfmon`, whether the expensive collection was performed at all, and
the bytes written to the accumulator. -/
structure PerfmonOut where
  newLast : Nat
  queried : Bool
  written : Bytes
deriving DecidableEq

/-- `RandAddSeedPerfmon`, given the OS query behaviour, the stored
`last_perfmon` value and the current time (both in seconds): return
immediately inside the 10-minute cooldown; otherwise store the current
time, run the query loop starting from a 250000-byte buffer, and on
`ERROR_SUCCESS` write `nSize` bytes of performance data. -/
def randAddSeedPerfmon (os : OsQuery) (last now : Nat) : PerfmonOut :=
  if now < last + 600 then ⟨last, false, []⟩
  else
    let r := perfmonLoop os 250000
    ⟨now, true, if r.ret = 0 then (List.range r.nSize).map (os.data r.bufSize) else []⟩

/-- Two successive `RandAddSeedPerfmon` calls at times `t1` and `t2`,
threading the `last_perfmon` state, counting how many of the two calls
performed the expensive collection. -/
def runTwo (os : OsQuery) (last t1 t2 : Nat) : Nat :=
  let r1 := randAddSeedPerfmon os last t1
  let r2 := randAddSeedPerfmon os r1.newLast t2
  (if r1.queried then 1 else 0) + (if r2.queried then 1 else 0)

theorem perfmon_cooldown_eq (os : OsQuery) (last now : Nat) (h : now < last + 600) :
    randAddSeedPerfmon os last now = ⟨last, false, []⟩ := by
  simp [randAddSeedPerfmon, h]

theorem perfmon_newLast_due (os : OsQuery) (last now : Nat) (h : last + 600 ≤ now) :
    (randAddSeedPerfmon os last now).newLast = now := by
  simp only [randAddSeedPerfmon]
  rw [if_neg (Nat.not_lt.mpr h)]

theorem perfmon_queried_due (os : OsQuery) (last now : Nat) (h : last + 600 ≤ now) :
    (randAddSeedPerfmon os last now).queried = true := by
  simp only [randAddSeedPerfmon]
  rw [if_neg (Nat.not_lt.mpr h)]

/-- Claim C1: inside the 10-minute cooldown (`now < last + 600` seconds) the
call returns with no write to the accumulator and no expensive query, and
the stored timestamp unchanged; consequently, starting from a due state,
two calls 5 minutes apart perform the expensive collection exactly once,
and two calls 11 minutes apart perform it exactly twice. -/
theorem perfmon_rate_limit (os : OsQuery) (last now t : Nat)
    (hcool : now < last + 600) (hdue : last + 600 ≤ t) :
    randAddSeedPerfmon os last now = ⟨last, false, []⟩ ∧
    runTwo os last t (t + 300) = 1 ∧
    runTwo os last t (t + 660) = 2 := by
  refine ⟨perfmon_cooldown_eq os last now hcool, ?_, ?_⟩
  · simp only [runTwo, perfmon_newLast_due os last t hdue,
      perfmon_queried_due os last t hdue,
      perfmon_cooldown_eq os t (t + 300) (by omega)]
    simp
  · simp only [runTwo, perfmon_newLast_due os last t hdue,
      perfmon_queried_due os last t hdue,
      perfmon_queried_due os t (t + 660) (by omega)]
    simp

/-- Concrete OS behaviour used to instantiate `perfmon_rate_limit`. -/
def osPlain : OsQuery := ⟨fun _ => 0, fun _ => 8, fun _ _ => 3⟩

/-- Witness for `perfmon_rate_limit` at a concrete state and times. -/
theorem perfmon_rate_limit_witness :
    300 < 0 + 600 ∧ 0 + 600 ≤ 600 ∧
    (randAddSeedPerfmon osPlain 0 300 = ⟨0, false, []⟩ ∧
     runTwo osPlain 0 600 (600 + 300) = 1 ∧
     runTwo osPlain 0 600 (600 + 660) = 2) :=
  ⟨by decide, by decide, perfmon_rate_limit osPlain 0 300 600 (by decide) (by decide)⟩

/-- An OS on which the performance query always reports "buffer too small"
(`ERROR_MORE_DATA`), whatever buffer size it is handed. -/
def osMoreData : OsQuery := ⟨fun _ => 234, fun sz => sz + 4096, fun _ _ => 0⟩

/-- Claim C2 (behaviour at the failing input): when the OS keeps reporting
"buffer too small", the resize step `std::max((size * 3) / 2, nMaxSize)`
jumps from the initial 250000 bytes directly to the 10 MB cap — it is not
the 3/2-factor growth (375000) announced by the code's own comment, and the
loop therefore queries at exactly the two sizes 250000 and 10000000, with
no strictly increasing intermediate sizes. -/
theorem perfmon_growth_at_cap :
    perfmonGrow 250000 = 10000000 ∧
    250000 * 3 / 2 = 375000 ∧
    perfmonGrow 250000 ≠ 375000 ∧
    (perfmonLoop osMoreData 250000).sizes = [250000, 10000000] := by
  refine ⟨by decide, by decide, by decide, ?_⟩
  rw [perfmonLoop, dif_neg (by decide)]
  rw [perfmonLoop]
  norm_num [osMoreData, perfmonGrow, ERROR_MORE_DATA]

/-- An OS on which the performance query always fails with an error code
that is neither success nor `ERROR_MORE_DATA` (here 5, access denied). -/
def osFail : OsQuery := ⟨fun _ => 5, fun _ => 0, fun _ _ => 0⟩

/-- Claim C3 is false on the code: with the query failing (return code 5,
so nothing is collected and nothing is written), a call at time 1000 from
the never-collected state still advances `last_perfmon` from 0 to 1000 —
the timestamp is updated before the query, not only on success. -/
theorem perfmon_update_on_failure :
    (perfmonLoop osFail 250000).ret ≠ 0 ∧
    (randAddSeedPerfmon osFail 0 1000).written = [] ∧
    (randAddSeedPerfmon osFail 0 1000).newLast = 1000 ∧
    (1000 : Nat) ≠ 0 := by
  have hloop : perfmonLoop osFail 250000 = ⟨5, 0, 250000, [250000]⟩ := by
    rw [perfmonLoop, dif_pos (by decide)]
    rfl
  refine ⟨by rw [hloop]; decide, ?_, ?_, by decide⟩
  · simp only [randAddSeedPerfmon]
    rw [if_neg (by omega), hloop]
    decide
  · simp only [randAddSeedPerfmon]
    rw [if_neg (by omega)]

/-- Claim C3 amended: `last_perfmon` is left unchanged by a call inside the
cooldown, and is set to the current time by every call past the cooldown —
before the expensive query runs and regardless of whether it succeeds. -/
theorem perfmon_state_update (os : OsQuery) (last now t : Nat)
    (hcool : now < last + 600) (hdue : last + 600 ≤ t) :
    (randAddSeedPerfmon os last now).newLast = last ∧
    (randAddSeedPerfmon os last t).newLast = t := by
  constructor
  · rw [perfmon_cooldown_eq os last now hcool]
  · exact perfmon_newLast_due os last t hdue

/-- Witness for `perfmon_state_update` at a concrete state and times,
using an OS on which the query fails. -/
theorem perfmon_state_update_witness :
    300 < 0 + 600 ∧ 0 + 600 ≤ 900 ∧
    ((randAddSeedPerfmon osFail 0 300).newLast = 0 ∧
     (randAddSeedPerfmon osFail 0 900).newLast = 900) :=
  ⟨by decide, by decide, perfmon_state_update osFail 0 300 900 (by decide) (by decide)⟩

/-! ## CPU feature enumeration: `AddAllCPUID`

The `GetCPUID` instruction is modelled as an oracle from (leaf, sub-leaf)
to the four output registers. -/

/-- Output registers of one CPUID query. -/
structure CpuidRegs where
  ax : Nat
  bx : Nat
  cx : Nat
  dx : Nat
deriving DecidableEq

/-- Responses of the hardware to CPUID queries, indexed by leaf and
sub-leaf. -/
abbrev CpuidOracle := Nat → Nat → CpuidRegs

/-- Exit test of the inner `for (uint32_t subleaf = 0;; ++subleaf)` loop of
`AddAllCPUID`, evaluated after querying `(leaf, subleaf)`: leaves other
than 4, 11, 13 always exit after one query; leaves 4 and 13 exit when the
returned `ax` is zero; leaf 11 exits when the returned `cx & 0xFF00` is
zero. There is no other exit condition in the loop body. -/
def subleafExit (cpu : CpuidOracle) (leaf subleaf : Nat) : Bool :=
  let r := cpu leaf subleaf
  if leaf ≠ 4 ∧ leaf ≠ 11 ∧ leaf ≠ 13 then true
  else if (leaf = 4 ∨ leaf = 13) ∧ r.ax = 0 then true
  else if leaf = 11 ∧ r.cx &&& 0xFF00 = 0 then true
  else false

/-- The sub-leaf loop of `AddAllCPUID` for a given leaf terminates exactly
when some iteration satisfies its exit test. -/
def subleafLoopTerminates (cpu : CpuidOracle) (leaf : Nat) : Prop :=
  ∃ n, subleafExit cpu leaf n = true

/-- Number of CPUID queries the sub-leaf loop makes for a leaf, starting at
sub-leaf `sub`, within the first `fuel` iterations: the loop queries once
per iteration and stops after an iteration whose exit test holds, so a
count equal to `fuel` means the loop was still running after `fuel`
queries. -/
def subleafQueriesFrom (cpu : CpuidOracle) (leaf : Nat) : Nat → Nat → Nat
  | _, 0 => 0
  | sub, fuel + 1 =>
    1 + (if subleafExit cpu leaf sub then 0 else subleafQueriesFrom cpu leaf (sub + 1) fuel)

/-- A hardware response pattern: leaf 0 reports a maximum standard leaf of
11, and every other leaf (in particular leaf 11, for every sub-leaf)
returns `cx = 0x100`, i.e. a nonzero level-type byte in bits 8..15. -/
def badCpuid : CpuidOracle := fun leaf _ =>
  if leaf = 0 then ⟨11, 0, 0, 0⟩ else ⟨1, 0, 0x100, 0⟩

set_option maxRecDepth 8000 in
/-- Claim C4 is false on the code: `AddAllCPUID` has no fixed maximum
sub-leaf bound. Under `badCpuid`, leaf 11 is within the iterated range
(max leaf 11), the leaf-11 sub-leaf loop is still running after 300
queries, and no iteration ever satisfies the exit test, so the loop never
terminates. -/
theorem cpuid_leaf11_unbounded :
    (badCpuid 0 0).ax = 11 ∧
    subleafQueriesFrom badCpuid 11 0 300 = 300 ∧
    ¬ subleafLoopTerminates badCpuid 11 := by
  have hexit : ∀ n, subleafExit badCpuid 11 n = false := by
    intro n
    simp [subleafExit, badCpuid]
  refine ⟨rfl, by decide, ?_⟩
  rintro ⟨n, hn⟩
  rw [hexit n] at hn
  exact Bool.false_ne_true hn

/-! ## Bounded file reader: `AddFile`

The sequence of `read(f, fbuf, 4096)` return values is modelled as a list
of integers (positive: bytes delivered; `0`: end of stream; negative:
error, e.g. `-1` for `EINTR`). -/

/-- The `do { ... } while` read loop of `AddFile`, given the successive
`read` return values, the running `size_t total` and the count of content
bytes absorbed so far; returns the total content bytes absorbed. Each
step writes `n` bytes when `n > 0`, adds `n` to `total` (with the
wrap-around of a 64-bit `size_t`), and continues only while the read was a
full 4096-byte chunk and `total` is still below 1048576. No read is ever
retried. -/
def addFileLoop : List Int → Nat → Nat → Nat
  | [], _, absorbed => absorbed
  | n :: rest, total, absorbed =>
    let absorbed2 := if 0 < n then absorbed + n.toNat else absorbed
    let total2 := (((total : Int) + n) % (18446744073709551616 : Int)).toNat
    if n = 4096 ∧ total2 < 1048576 then addFileLoop rest total2 absorbed2
    else absorbed2

/-- Read results delivered by a regular file holding `N` bytes: full
4096-byte chunks while at least 4096 bytes remain, then the short
remainder if any, then end of stream. -/
def fileReads (N : Nat) : List Int :=
  if h : 4096 ≤ N then (4096 : Int) :: fileReads (N - 4096)
  else if N = 0 then [(0 : Int)] else [(N : Int), 0]
termination_by N
decreasing_by omega

theorem wrap_small (m : Nat) (h : m < 18446744073709551616) :
    (((m : Int)) % (18446744073709551616 : Int)).toNat = m := by
  rw [Int.emod_eq_of_lt (by positivity) (by exact_mod_cast h)]
  exact Int.toNat_natCast m

theorem addFileLoop_full_chunks (k : Nat) :
    ∀ (rest : List Int) (total a : Nat), 1 ≤ k → total + 4096 * k = 1048576 →
      addFileLoop (List.replicate k 4096 ++ rest) total a = a + 4096 * k := by
  induction k with
  | zero => omega
  | succ k ih =>
    intro rest total a _ htot
    rw [List.replicate_succ, List.cons_append]
    have hwrap : (((total : Int) + 4096) % (18446744073709551616 : Int)).toNat
        = total + 4096 := by
      have := wrap_small (total + 4096) (by omega)
      rw [← this]
      norm_num
    simp only [addFileLoop, hwrap]
    rcases Nat.eq_zero_or_pos k with hk | hk
    · subst hk
      rw [if_neg (fun hc => absurd hc.2 (by omega))]
      norm_num
      omega
    · rw [if_pos ⟨by trivial, by omega⟩]
      norm_num
      rw [show (4096 : Int).toNat = 4096 from rfl]
      rw [ih rest (total + 4096) (a + 4096) hk (by omega)]
      omega

theorem fileReads_chunks (k : Nat) :
    ∀ N, 4096 * k ≤ N →
      fileReads N = List.replicate k 4096 ++ fileReads (N - 4096 * k) := by
  induction k with
  | zero => simp
  | succ k ih =>
    intro N hN
    rw [fileReads, dif_pos (by omega), List.replicate_succ, List.cons_append]
    rw [ih (N - 4096) (by omega)]
    have : N - 4096 - 4096 * k = N - 4096 * (k + 1) := by omega
    rw [this]

/-- Claim C5: the read loop of `AddFile` absorbs exactly 1048576 content
bytes from every file of at least 5 MiB delivering full chunks (the 1 MiB
cap is reached exactly after 256 chunks of 4096 bytes); a read error stops
the loop at once with nothing absorbed from it and no retry, a short read
stops the loop after absorbing just its bytes, and end of stream stops the
loop — in each case whatever further reads might return is never
consulted. -/
theorem addFile_cap (N : Nat) (h5 : 5242880 ≤ N) (rest : List Int) :
    addFileLoop (fileReads N) 0 0 = 1048576 ∧
    addFileLoop ((-1) :: rest) 0 0 = 0 ∧
    addFileLoop ((100 : Int) :: rest) 0 0 = 100 ∧
    addFileLoop ((0 : Int) :: rest) 0 0 = 0 := by
  refine ⟨?_, by simp [addFileLoop], by simp [addFileLoop], by simp [addFileLoop]⟩
  rw [fileReads_chunks 256 N (by omega)]
  have := addFileLoop_full_chunks 256 (fileReads (N - 4096 * 256)) 0 0 (by omega) (by omega)
  rw [this]

/-- Witness for `addFile_cap` at a 5 MiB file. -/
theorem addFile_cap_witness :
    5242880 ≤ 5242880 ∧
    (addFileLoop (fileReads 5242880) 0 0 = 1048576 ∧
     addFileLoop [-1] 0 0 = 0 ∧
     addFileLoop [(100 : Int)] 0 0 = 100 ∧
     addFileLoop [(0 : Int)] 0 0 = 0) :=
  ⟨by decide, addFile_cap 5242880 (by decide) []⟩

/-! ## Path metadata reader: `AddPath`

A path is the zero-free byte content of its C string; `stat` is modelled
as a partial map from paths to the raw bytes of the `struct stat` it
fills in. -/

/-- Bytes covered by `strlen` on a NUL-terminated C string stored as `s`:
everything up to the first zero byte. -/
def cstrlenBytes (s : Bytes) : Bytes := s.takeWhile (fun b => b != 0)

theorem cstrlen_zero_free (e : List Nat) (h : 0 ∉ e) :
    cstrlenBytes (e ++ [0]) = e := by
  induction e with
  | nil => simp [cstrlenBytes]
  | cons a t ih =>
    simp only [List.mem_cons, not_or] at h
    obtain ⟨ha, ht⟩ := h
    have ha2 : (a != 0) = true := by simp [bne_iff_ne]; exact fun hh => ha hh.symm
    simp only [cstrlenBytes, List.cons_append, List.takeWhile_cons, ha2, if_true]
    exact congrArg (a :: ·) (ih ht)

/-- `AddPath`: if `stat` fails nothing is absorbed; if it succeeds, the
path string is absorbed with `strlen(path) + 1` bytes (content plus the
NUL terminator) followed by the raw `struct stat` bytes. -/
def addPath (stat : List Nat → Option (List Nat)) (path : List Nat) : Bytes :=
  match stat path with
  | none => []
  | some sb => (cstrlenBytes (path ++ [0]) ++ [0]) ++ sb

/-- Claim C6: for a path that does not resolve, `AddPath` absorbs nothing
and returns normally; for a path that resolves, it absorbs the path string
(NUL included) followed by the metadata bytes. -/
theorem addPath_spec (stat1 stat2 : List Nat → Option (List Nat))
    (path sb : List Nat) (h0 : 0 ∉ path)
    (h1 : stat1 path = none) (h2 : stat2 path = some sb) :
    addPath stat1 path = [] ∧
    addPath stat2 path = path ++ [0] ++ sb := by
  constructor
  · simp [addPath, h1]
  · simp [addPath, h2, cstrlen_zero_free path h0]

/-- A filesystem on which no path resolves. -/
def statNone : List Nat → Option (List Nat) := fun _ => none

/-- A filesystem on which every path resolves with metadata bytes `[7, 8]`. -/
def statAll : List Nat → Option (List Nat) := fun _ => some [7, 8]

/-- Witness for `addPath_spec` at the path "/" (byte 47). -/
theorem addPath_spec_witness :
    (0 : Nat) ∉ [47] ∧ statNone [47] = none ∧ statAll [47] = some [7, 8] ∧
    (addPath statNone [47] = [] ∧
     addPath statAll [47] = [47] ++ [0] ++ [7, 8]) :=
  ⟨by decide, rfl, rfl, addPath_spec statNone statAll [47] [7, 8] (by decide) rfl rfl⟩

/-! ## Typed absorb operation: `operator<<` on `CSHA512`

A fragment of the C++ type grammar sufficient for the four
`static_assert`s of `operator<<`, together with `std::decay`. -/

/-- C++ types as far as the absorb guard needs them: `char`,
`unsigned char` (which is `uint8_t`), other object types, pointers,
`const`-qualified types and references. -/
inductive CppType where
  | charTy
  | ucharTy
  | intTy
  | voidTy
  | ptr (t : CppType)
  | constTy (t : CppType)
  | refTy (t : CppType)
deriving DecidableEq, BEq

/-- Reference stripping, the first step of `std::decay`. -/
def removeRefTy : CppType → CppType
  | .refTy t => t
  | t => t

/-- Top-level cv stripping, the second step of `std::decay` for non-array,
non-function types. -/
def removeConst : CppType → CppType
  | .constTy t => removeConst t
  | t => t

/-- `std::decay` on the types the guard can meet. -/
def decay (t : CppType) : CppType := removeConst (removeRefTy t)

/-- The four `static_assert`s of `operator<<(CSHA512 &, const T &)`: the
instantiation is rejected when `std::decay<T>` is `char *`, `uint8_t *`,
`const char *` or `const uint8_t *`. -/
def absorbRejected (t : CppType) : Bool :=
  decay t == .ptr .charTy || decay t == .ptr .ucharTy ||
  decay t == .ptr (.constTy .charTy) || decay t == .ptr (.constTy .ucharTy)

/-- The typed absorb operation: for an accepted type it writes the
`sizeof(data)` bytes of the in-memory representation; for a rejected type
the instantiation does not exist (no byte sequence results). -/
def absorbValue (t : CppType) (reprBytes : Bytes) : Option Bytes :=
  if absorbRejected t then none else some reprBytes

/-- Claim C7: the typed absorb operation rejects, at instantiation time,
every type decaying to `char *`, `uint8_t *`, `const char *` or
`const uint8_t *` — in particular the four pointer types themselves and
any const/reference-qualified variant of them — so no absorb of such a
pointer (which would hash the address, not the string) exists. -/
theorem absorb_rejects_string_pointers (t : CppType) (bs : Bytes)
    (h : absorbRejected t = true) :
    absorbValue t bs = none ∧
    (∀ t2 : CppType, decay t2 = decay t → absorbValue t2 bs = none) ∧
    absorbValue (.ptr .charTy) bs = none ∧
    absorbValue (.ptr (.constTy .charTy)) bs = none ∧
    absorbValue (.ptr .ucharTy) bs = none ∧
    absorbValue (.ptr (.constTy .ucharTy)) bs = none ∧
    absorbValue (.refTy (.constTy (.ptr .charTy))) bs = none ∧
    absorbValue (.constTy (.ptr (.constTy .ucharTy))) bs = none := by
  refine ⟨by simp [absorbValue, h], ?_, rfl, rfl, rfl, rfl, rfl, rfl⟩
  intro t2 ht2
  have hr : absorbRejected t2 = absorbRejected t := by
    simp [absorbRejected, ht2]
  simp [absorbValue, hr, h]

/-- Witness for `absorb_rejects_string_pointers` at `char *`. -/
theorem absorb_rejects_witness :
    absorbRejected (.ptr .charTy) = true ∧
    (absorbValue (.ptr .charTy) [5] = none ∧
     (∀ t2 : CppType, decay t2 = decay (.ptr .charTy) → absorbValue t2 [5] = none) ∧
     absorbValue (.ptr .charTy) [5] = none ∧
     absorbValue (.ptr (.constTy .charTy)) [5] = none ∧
     absorbValue (.ptr .ucharTy) [5] = none ∧
     absorbValue (.ptr (.constTy .ucharTy)) [5] = none ∧
     absorbValue (.refTy (.constTy (.ptr .charTy))) [5] = none ∧
     absorbValue (.constTy (.ptr (.constTy .ucharTy))) [5] = none) :=
  ⟨by decide, absorb_rejects_string_pointers (.ptr .charTy) [5] (by decide)⟩

/-! ## Socket address absorption: `AddSockaddr`

A `struct sockaddr` is its family tag plus the raw bytes of the memory it
points to; on this platform `AF_INET = 2`, `AF_INET6 = 10`,
`sizeof(sockaddr_in) = 16`, `sizeof(sockaddr_in6) = 28` and
`sizeof(sa_family_t) = 2`. -/

def AF_INET : Nat := 2

def AF_INET6 : Nat := 10

/-- A socket address: its `sa_family` field and the bytes of the memory
behind the pointer. -/
structure Sockaddr where
  sa_family : Nat
  mem : Nat → Nat

/-- The two bytes of the `sa_family` field written in the default case. -/
def familyTagBytes (a : Sockaddr) : Bytes :=
  [a.sa_family % 256, a.sa_family / 256 % 256]

/-- `AddSockaddr`: nothing for a null pointer; `sizeof(sockaddr_in)` bytes
for `AF_INET`; `sizeof(sockaddr_in6)` bytes for `AF_INET6`; only the
`sa_family` field for every other family. -/
def addSockaddr : Option Sockaddr → Bytes
  | none => []
  | some a =>
    if a.sa_family = AF_INET then (List.range 16).map a.mem
    else if a.sa_family = AF_INET6 then (List.range 28).map a.mem
    else familyTagBytes a

/-- Claim C8: a null address absorbs nothing, an IPv4 address absorbs
exactly the 16 bytes of `sockaddr_in`, an IPv6 address exactly the 28
bytes of `sockaddr_in6`, and any other family exactly the 2-byte family
tag — a fixed width determined solely by the address family. -/
theorem addSockaddr_width (a b c : Sockaddr)
    (ha : a.sa_family = AF_INET) (hb : b.sa_family = AF_INET6)
    (hc1 : c.sa_family ≠ AF_INET) (hc2 : c.sa_family ≠ AF_INET6) :
    addSockaddr none = [] ∧
    addSockaddr (some a) = (List.range 16).map a.mem ∧
    (addSockaddr (some a)).length = 16 ∧
    addSockaddr (some b) = (List.range 28).map b.mem ∧
    (addSockaddr (some b)).length = 28 ∧
    addSockaddr (some c) = familyTagBytes c ∧
    (addSockaddr (some c)).length = 2 := by
  have hb2 : b.sa_family ≠ AF_INET := by rw [hb]; decide
  have hc1b : c.sa_family ≠ 2 := hc1
  have hc2b : c.sa_family ≠ 10 := hc2
  refine ⟨rfl, ?_, ?_, ?_, ?_, ?_, ?_⟩ <;>
    simp [addSockaddr, AF_INET, AF_INET6, ha, hb, hb2, hc1b, hc2b, familyTagBytes]

/-- Witness addresses for each family case. -/
def sockV4 : Sockaddr := ⟨2, fun i => i⟩

def sockV6 : Sockaddr := ⟨10, fun i => i + 1⟩

def sockOther : Sockaddr := ⟨17, fun i => i + 2⟩

/-- Witness for `addSockaddr_width` at concrete IPv4, IPv6 and other-family
addresses. -/
theorem addSockaddr_width_witness :
    sockV4.sa_family = AF_INET ∧ sockV6.sa_family = AF_INET6 ∧
    sockOther.sa_family ≠ AF_INET ∧ sockOther.sa_family ≠ AF_INET6 ∧
    (addSockaddr none = [] ∧
     addSockaddr (some sockV4) = (List.range 16).map sockV4.mem ∧
     (addSockaddr (some sockV4)).length = 16 ∧
     addSockaddr (some sockV6) = (List.range 28).map sockV6.mem ∧
     (addSockaddr (some sockV6)).length = 28 ∧
     addSockaddr (some sockOther) = familyTagBytes sockOther ∧
     (addSockaddr (some sockOther)).length = 2) :=
  ⟨rfl, rfl, by decide, by decide,
   addSockaddr_width sockV4 sockV6 sockOther rfl rfl (by decide) (by decide)⟩

/-! ## Environment table absorption in `RandAddStaticEnv`

Each `environ` entry is the zero-free byte content of its "NAME=value" C
string; the loop writes `strlen(environ[i])` bytes of each entry, in the
order the OS presents them. -/

/-- The `environ` loop of `RandAddStaticEnv`: for each entry in order,
write the bytes `strlen` covers on its NUL-terminated storage. -/
def writeEnviron (env : List (List Nat)) : Bytes :=
  (env.map (fun e => cstrlenBytes (e ++ [0]))).flatten

/-- Claim C9: the environment table is absorbed as exactly the raw bytes of
each entry, in the OS-presented order, with no delimiter, separator or
terminator between or after entries — the total length is the plain sum of
the entry lengths. -/
theorem environ_no_delimiter (env : List (List Nat))
    (h : ∀ e ∈ env, 0 ∉ e) :
    writeEnviron env = env.flatten ∧
    (writeEnviron env).length = (env.map List.length).sum := by
  have hmap : env.map (fun e => cstrlenBytes (e ++ [0])) = env := by
    induction env with
    | nil => rfl
    | cons e t ih =>
      have he := h e (List.mem_cons_self e t)
      rw [List.map_cons, cstrlen_zero_free e he,
        ih (fun x hx => h x (List.mem_cons_of_mem e hx))]
  constructor
  · rw [writeEnviron, hmap]
  · rw [writeEnviron, hmap, List.length_flatten]

/-- Witness for `environ_no_delimiter` on the two-entry table
"A=1", "B=2". -/
theorem environ_no_delimiter_witness :
    (∀ e ∈ [[65, 61, 49], [66, 61, 50]], (0 : Nat) ∉ e) ∧
    (writeEnviron [[65, 61, 49], [66, 61, 50]] = ([[65, 61, 49], [66, 61, 50]] : List (List Nat)).flatten ∧
     (writeEnviron [[65, 61, 49], [66, 61, 50]]).length
        = (([[65, 61, 49], [66, 61, 50]] : List (List Nat)).map List.length).sum) :=
  ⟨by decide, environ_no_delimiter [[65, 61, 49], [66, 61, 50]] (by decide)⟩

/-! ## Kernel parameter queries: `AddSysctl`

One `sysctl` call on a 65536-byte stack buffer, modelled by its return
code, `errno`, the size written back through `oldlenp`, and the buffer
contents. -/

/-- Outcome of the `sysctl` call made by `AddSysctl`: return code (`0` or
`-1`), `errno`, the value left in `siz`, and byte `i` of the buffer. -/
structure SysctlResult where
  ret : Int
  errno : Nat
  siz : Nat
  data : Nat → Nat

/-- `AddSysctl` with control vector `ctl` (the template arguments `S...`):
on success or on failure with `errno == ENOMEM` (12) it absorbs
`sizeof(CTL)` as a `size_t`, the raw `int` array `CTL`, the reported size
clamped to the 65536-byte buffer as a `size_t`, and that many buffer
bytes; on any other failure it absorbs nothing. -/
def addSysctl (ctl : List Nat) (r : SysctlResult) : Bytes :=
  if r.ret = 0 ∨ (r.ret = -1 ∧ r.errno = 12) then
    le64 (4 * ctl.length) ++ (ctl.map le32).flatten ++
    (let siz := if 65536 < r.siz then 65536 else r.siz
     le64 siz ++ (List.range siz).map r.data)
  else []

theorem le32_flatten_length (l : List Nat) :
    ((l.map le32).flatten).length = 4 * l.length := by
  induction l with
  | nil => rfl
  | cons a t ih =>
    rw [List.map_cons, List.flatten_cons, List.length_append, ih, le32_length,
      List.length_cons]
    ring

/-- Claim C10: on success `AddSysctl` absorbs the name length, the name,
the result length and exactly `siz` result bytes; on failure with
`ENOMEM` it absorbs the same header and exactly the 65536 clamped bytes
(a truncated result still contributes); on any other failure it absorbs
nothing; and in every case at most 65536 result bytes (16 + 4·levels
header bytes aside) enter the accumulator. -/
theorem addSysctl_spec (ctl : List Nat) (r rE rf : SysctlResult)
    (hr0 : r.ret = 0) (hrs : r.siz ≤ 65536)
    (hE1 : rE.ret = -1) (hE2 : rE.errno = 12) (hE3 : 65536 < rE.siz)
    (hf1 : rf.ret ≠ 0) (hf2 : ¬(rf.ret = -1 ∧ rf.errno = 12)) :
    (addSysctl ctl r).length = 16 + 4 * ctl.length + r.siz ∧
    addSysctl ctl rE = le64 (4 * ctl.length) ++ (ctl.map le32).flatten ++
      (le64 65536 ++ (List.range 65536).map rE.data) ∧
    (addSysctl ctl rE).length = 16 + 4 * ctl.length + 65536 ∧
    addSysctl ctl rf = [] ∧
    ∀ q : SysctlResult, (addSysctl ctl q).length ≤ 16 + 4 * ctl.length + 65536 := by
  refine ⟨?_, ?_, ?_, ?_, ?_⟩
  · rw [addSysctl, if_pos (Or.inl hr0)]
    simp only [if_neg (by omega : ¬ 65536 < r.siz)]
    simp only [List.length_append, le64_length, le32_flatten_length,
      List.length_map, List.length_range]
    omega
  · rw [addSysctl, if_pos (Or.inr ⟨hE1, hE2⟩)]
    simp only [if_pos hE3]
  · rw [addSysctl, if_pos (Or.inr ⟨hE1, hE2⟩)]
    simp only [if_pos hE3]
    simp only [List.length_append, le64_length, le32_flatten_length,
      List.length_map, List.length_range]
    omega
  · rw [addSysctl, if_neg]
    rintro (hc | hc)
    · exact hf1 hc
    · exact hf2 hc
  · intro q
    rw [addSysctl]
    split
    · simp only [List.length_append, le64_length, le32_flatten_length,
        List.length_map, List.length_range]
      split <;> omega
    · simp

/-- Witness results for `addSysctl_spec`: a success with 100 bytes, an
`ENOMEM` failure reporting 70000 bytes, and a failure with another
errno. -/
def sysOk : SysctlResult := ⟨0, 0, 100, fun i => i⟩

def sysBig : SysctlResult := ⟨-1, 12, 70000, fun i => i + 1⟩

def sysErr : SysctlResult := ⟨-1, 13, 0, fun i => i + 2⟩

/-- Witness for `addSysctl_spec` at the control vector `[1, 14]`. -/
theorem addSysctl_spec_witness :
    sysOk.ret = 0 ∧ sysOk.siz ≤ 65536 ∧
    sysBig.ret = -1 ∧ sysBig.errno = 12 ∧ 65536 < sysBig.siz ∧
    sysErr.ret ≠ 0 ∧ ¬(sysErr.ret = -1 ∧ sysErr.errno = 12) ∧
    ((addSysctl [1, 14] sysOk).length = 16 + 4 * ([1, 14] : List Nat).length + sysOk.siz ∧
     addSysctl [1, 14] sysBig = le64 (4 * ([1, 14] : List Nat).length) ++
       (([1, 14] : List Nat).map le32).flatten ++
       (le64 65536 ++ (List.range 65536).map sysBig.data) ∧
     (addSysctl [1, 14] sysBig).length = 16 + 4 * ([1, 14] : List Nat).length + 65536 ∧
     addSysctl [1, 14] sysErr = [] ∧
     ∀ q : SysctlResult, (addSysctl [1, 14] q).length ≤ 16 + 4 * ([1, 14] : List Nat).length + 65536) :=
  ⟨rfl, by decide, rfl, rfl, by decide, by decide, by decide,
   addSysctl_spec [1, 14] sysOk sysBig sysErr rfl (by decide) rfl rfl (by decide)
     (by decide) (by decide)⟩

end RandomEnv
